import Mathlib

/-!
Verification of the iGOT SCORM downloader core (scorm_downloader.py, app.py).

Python strings are modelled as `List Char`; the mutable `self.stats` dict is
the `Stats` structure; JSON payloads are the `PyJson` inductive; network and
filesystem effects are passed in explicitly as per-attempt outcome values, so
each Python function becomes a pure Lean function of its inputs and of the
behaviour of the outside world.
-/

namespace Scorm

/-- Characters replaced by `'_'` in the first rule of `sanitize_filename`
(the Python character class is the nine characters below, backslash included;
the double quote is written `Char.ofNat 34`). -/
def isInvalidChar (c : Char) : Bool :=
  c == '<' || c == '>' || c == ':' || c == Char.ofNat 34 || c == '/' ||
  c == '\\' || c == '|' || c == '?' || c == '*'

/-- ASCII whitespace, the characters matched by Python's regex class `\s`
on ASCII text (names are modelled over this set). -/
def isSpaceChar (c : Char) : Bool :=
  c == ' ' || c == '\t' || c == '\n' || c == '\r' ||
  c == Char.ofNat 11 || c == Char.ofNat 12

def replaceInvalid (c : Char) : Char :=
  if isInvalidChar c then '_' else c

/-- One leftmost match of the regex `\s*\([^)]*\)\s*` at the head of `s`:
optional whitespace, an opening parenthesis, characters up to the first
closing parenthesis, that parenthesis, then trailing whitespace.  Returns
the remainder after the match, or `none` when no match starts here. -/
def matchParenGroup (s : List Char) : Option (List Char) :=
  match s.dropWhile isSpaceChar with
  | [] => none
  | x :: rest =>
    if x = '(' then
      match rest.dropWhile (fun c => c != ')') with
      | [] => none
      | _ :: rest2 => some (rest2.dropWhile isSpaceChar)
    else none

/-- Scanning engine for `re.sub(r'\s*\([^)]*\)\s*', '_', name)`: at each
position, replace a leftmost match by `'_'` and continue after it, else keep
the character.  The fuel is the length of the list, which suffices because
every match consumes at least two characters. -/
def removeParensAux : Nat → List Char → List Char
  | 0, s => s
  | _ + 1, [] => []
  | fuel + 1, c :: cs =>
    match matchParenGroup (c :: cs) with
    | some rest => '_' :: removeParensAux fuel rest
    | none => c :: removeParensAux fuel cs

def removeParens (s : List Char) : List Char :=
  removeParensAux s.length s

/-- Replace every maximal run of characters satisfying `p` by the single
character `r`; models `re.sub(r'\s+', '_', name)` (with `p` the whitespace
class) and `re.sub(r'_+', '_', name)` (with `p` testing for underscore). -/
def collapseRuns (p : Char → Bool) (r : Char) : List Char → List Char
  | [] => []
  | [c] => if p c then [r] else [c]
  | c :: c2 :: cs =>
    if p c then
      if p c2 then collapseRuns p r (c2 :: cs)
      else r :: collapseRuns p r (c2 :: cs)
    else c :: collapseRuns p r (c2 :: cs)

/-- Remove the trailing run of characters satisfying `p`. -/
def dropTrailing (p : Char → Bool) (l : List Char) : List Char :=
  (l.reverse.dropWhile p).reverse

/-- Python's `name.strip('_')`: remove leading and trailing underscores. -/
def stripUnderscores (s : List Char) : List Char :=
  dropTrailing (fun c => c == '_') (s.dropWhile (fun c => c == '_'))

/-- Python's `s.strip()`: remove leading and trailing whitespace. -/
def pyStrip (s : List Char) : List Char :=
  dropTrailing isSpaceChar (s.dropWhile isSpaceChar)

/-- `SCORMDownloader.sanitize_filename` (scorm_downloader.py lines 52-64):
replace invalid characters, collapse parenthesised groups, collapse
whitespace runs and underscore runs to single underscores, strip leading and
trailing underscores, and truncate at 30 characters to 27 plus `"..."`. -/
def sanitize_filename (name : List Char) : List Char :=
  let n1 := name.map replaceInvalid
  let n2 := removeParens n1
  let n3 := collapseRuns isSpaceChar '_' n2
  let n4 := collapseRuns (fun c => c == '_') '_' n3
  let n5 := stripUnderscores n4
  if 30 < n5.length then n5.take 27 ++ ['.', '.', '.'] else n5

/-- A character the sanitizer is allowed to emit: not in the invalid class
and not whitespace. -/
def isSafeChar (c : Char) : Bool :=
  !(isInvalidChar c) && !(isSpaceChar c)

/-- The `self.stats` dictionary of `SCORMDownloader.__init__`
(scorm_downloader.py lines 31-41). -/
structure Stats where
  total_courses : Nat
  processed_courses : Nat
  total_scorm_files : Nat
  downloaded_files : Nat
  failed_downloads : Nat
  total_mp4_files : Nat
  transcripts_fetched : Nat
  transcript_errors : Nat
  errors : List (List Char)
deriving DecidableEq

/-- The freshly initialised statistics record. -/
def stats0 : Stats := ⟨0, 0, 0, 0, 0, 0, 0, 0, []⟩

/-- Python JSON values as returned by `response.json()`. -/
inductive PyJson where
  | null : PyJson
  | pbool : Bool → PyJson
  | pint : Int → PyJson
  | pstr : List Char → PyJson
  | parr : List PyJson → PyJson
  | pobj : List (List Char × PyJson) → PyJson

/-- Dictionary lookup, `d[key]` / `key in d` combined: first binding wins. -/
def lookupField : List (List Char × PyJson) → List Char → Option PyJson
  | [], _ => none
  | (k, v) :: rest, key => if k = key then some v else lookupField rest key

/-- Python's `isinstance(x, list)` view of a JSON value. -/
def asList : PyJson → Option (List PyJson)
  | .parr l => some l
  | _ => none

/-- Python's `d.get(key, default)` on a field list. -/
def pyGetD (fields : List (List Char × PyJson)) (key : List Char) (d : PyJson) : PyJson :=
  match lookupField fields key with
  | some v => v
  | none => d

/-- Python's `j.get(key, default)` where `j` is expected to be a dict; a
non-dict would raise `AttributeError` in Python, which no claim exercises,
so it is mapped to the default here. -/
def objGetD (j : PyJson) (key : List Char) (d : PyJson) : PyJson :=
  match j with
  | .pobj fs => pyGetD fs key d
  | _ => d

/-! ### Content resolver: `get_content_details` (scorm_downloader.py lines 73-97) -/

/-- Behaviour of the metadata request made by `get_content_details`:
either the request succeeds with HTTP 2xx and the body parses to a JSON
object (`okEnv`), or `requests` raises a `RequestException` (`reqErr`), or
some other exception is raised while fetching or parsing (`otherErr`). -/
inductive CDBehavior where
  | okEnv : List (List Char × PyJson) → CDBehavior
  | reqErr : List Char → CDBehavior
  | otherErr : List Char → CDBehavior

/-- The test `data.get("responseCode") == "OK"`: true exactly when the field
is present and is the string `"OK"`. -/
def isOkResponse (fields : List (List Char × PyJson)) : Bool :=
  match lookupField fields ("responseCode".toList) with
  | some (.pstr s) => s == "OK".toList
  | _ => false

/-- `SCORMDownloader.get_content_details`: on an OK envelope return
`result.content` (defaulting to empty objects); on a non-OK envelope log and
return `None` without touching the statistics; on a `RequestException` or any
other exception append a message to `stats["errors"]` and return `None`.
The function is total: no exception escapes it. -/
def get_content_details (do_id : List Char) (b : CDBehavior) (st : Stats) :
    Option PyJson × Stats :=
  match b with
  | .okEnv fields =>
    if isOkResponse fields then
      (some (objGetD (pyGetD fields ("result".toList) (.pobj [])) ("content".toList) (.pobj [])), st)
    else
      (none, st)
  | .reqErr m =>
    (none, { st with errors := st.errors ++ ["Network error for ".toList ++ do_id ++ ": ".toList ++ m] })
  | .otherErr m =>
    (none, { st with errors := st.errors ++ ["Error for ".toList ++ do_id ++ ": ".toList ++ m] })

/-! ### Asset downloader: `download_file` and `download_file_with_retry`
(scorm_downloader.py lines 99-229) -/

/-- Outcome of one call to `download_file`, abstracting what the network and
filesystem do during that call.  Every exception raised inside the Python
function body is caught by one of its own handlers, so the call always
returns a boolean: `ok` is the success path, `mkdirFail` the directory
creation failure (returns `False` without touching statistics), and the
remaining three are the `RequestException` / `OSError` / generic handlers
(each returns `False` after incrementing `failed_downloads` and appending
one error message). -/
inductive DLOutcome where
  | ok : DLOutcome
  | mkdirFail : List Char → DLOutcome
  | netErr : List Char → DLOutcome
  | osErr : List Char → DLOutcome
  | otherErr : List Char → DLOutcome
deriving DecidableEq

def isOkOutcome : DLOutcome → Bool
  | .ok => true
  | _ => false

/-- `SCORMDownloader.download_file` as a function of the attempt's outcome. -/
def download_file (url : List Char) (o : DLOutcome) (st : Stats) : Bool × Stats :=
  match o with
  | .ok => (true, { st with downloaded_files := st.downloaded_files + 1 })
  | .mkdirFail _ => (false, st)
  | .netErr m =>
    (false, { st with
                failed_downloads := st.failed_downloads + 1
                errors := st.errors ++ ["Network error for ".toList ++ url ++ ": ".toList ++ m] })
  | .osErr m =>
    (false, { st with
                failed_downloads := st.failed_downloads + 1
                errors := st.errors ++ ["OS error for ".toList ++ url ++ ": ".toList ++ m] })
  | .otherErr m =>
    (false, { st with
                failed_downloads := st.failed_downloads + 1
                errors := st.errors ++ ["Download failed for ".toList ++ url ++ ": ".toList ++ m] })

/-- `SCORMDownloader.download_file_with_retry` with one outcome per attempt
(`outcomes.length` is `max_retries`, 3 at every call site).  The loop returns
`True` on the first successful attempt; a `False` return from `download_file`
is retried while attempts remain (the backoff sleeps are not modelled); the
loop's own exception handler is unreachable because `download_file` catches
every exception itself, and the function returns `False` once attempts are
exhausted — it never raises. -/
def download_file_with_retry (url : List Char) (outcomes : List DLOutcome) (st : Stats) :
    Bool × Stats :=
  match outcomes with
  | [] => (false, st)
  | o :: rest =>
    let r := download_file url o st
    if r.1 then (true, r.2)
    else download_file_with_retry url rest r.2

/-- Number of `failed_downloads` increments a single `download_file` call
performs for a given outcome. -/
def dlIncrements : DLOutcome → Nat
  | .ok => 0
  | .mkdirFail _ => 0
  | .netErr _ => 1
  | .osErr _ => 1
  | .otherErr _ => 1

/-! ### File operations of the successful write path of `download_file`
(scorm_downloader.py lines 152-200) -/

/-- One operation on the destination file handle. -/
inductive FileOp where
  | write : Nat → FileOp
  | flush : FileOp
  | fsync : FileOp
  | close : FileOp
deriving DecidableEq

/-- The sequence of file operations a successful `download_file` performs
after the HTTP request, as a function of `total_size` (the parsed
`content-length` header, defaulting to 0 when absent) and of the 8 KiB chunk
sizes delivered by `iter_content`.  With `total_size == 0` the whole body is
written in one call and the file is closed by the `with` block; otherwise the
non-empty chunks are written, then `flush` and `os.fsync` run before the
close.  Success (`return True`) is declared after the close in both cases. -/
def download_file_ops (total_size : Nat) (chunks : List Nat) : List FileOp :=
  if total_size = 0 then
    [FileOp.write chunks.sum, FileOp.close]
  else
    (chunks.filter (fun c => c != 0)).map FileOp.write ++
      [FileOp.flush, FileOp.fsync, FileOp.close]

/-! ### Pipeline transcript fetch: `fetch_transcript`
(scorm_downloader.py lines 231-268) -/

/-- Behaviour of one attempt of `fetch_transcript`: the request succeeds and
the body parses (`ok`), `requests` raises a `RequestException` (`reqErr`), or
any other exception is raised, for instance while decoding the body
(`otherErr`). -/
inductive TFOutcome where
  | ok : PyJson → TFOutcome
  | reqErr : List Char → TFOutcome
  | otherErr : List Char → TFOutcome

def isReqErr : TFOutcome → Bool
  | .reqErr _ => true
  | _ => false

/-- `SCORMDownloader.fetch_transcript` with one outcome per attempt; the
third component counts the attempts actually performed.  A `RequestException`
retries while attempts remain and on the last attempt increments
`transcript_errors`, appends an error and returns `None`; any other
exception does the same immediately, skipping the remaining attempts; an
exhausted loop returns `None`. -/
def fetch_transcript (resource_id : List Char) (outcomes : List TFOutcome) (st : Stats) :
    Option PyJson × Stats × Nat :=
  match outcomes with
  | [] => (none, st, 0)
  | o :: rest =>
    match o with
    | .ok d => (some d, st, 1)
    | .reqErr m =>
      match rest with
      | [] =>
        (none, { st with
                   transcript_errors := st.transcript_errors + 1
                   errors := st.errors ++
                     ["Transcript fetch failed for ".toList ++ resource_id ++ ": ".toList ++ m] }, 1)
      | _ :: _ =>
        let r := fetch_transcript resource_id rest st
        (r.1, r.2.1, r.2.2 + 1)
    | .otherErr m =>
      (none, { st with
                 transcript_errors := st.transcript_errors + 1
                 errors := st.errors ++
                   ["Transcript error for ".toList ++ resource_id ++ ": ".toList ++ m] }, 1)

/-! ### Transcript payload handling inside `process_resource`
(scorm_downloader.py lines 481-552) -/

/-- The caption entries one data item contributes (lines 500-513): the first
of the keys `transcription_urls`, `transcription_url`, `transcripts` that is
present is taken, and its value is pooled when it is a list. -/
def extract_item_transcripts (item : PyJson) : List PyJson :=
  match item with
  | .pobj fs =>
    let turls : Option PyJson :=
      match lookupField fs ("transcription_urls".toList) with
      | some v => some v
      | none =>
        match lookupField fs ("transcription_url".toList) with
        | some v => some v
        | none => lookupField fs ("transcripts".toList)
    match turls with
    | some (.parr l) => l
    | _ => []
  | _ => []

/-- The fallback of lines 516-519: direct top-level fields, first of the
three keys that is present with a list value. -/
def fallback_direct (fields : List (List Char × PyJson)) : List PyJson :=
  match lookupField fields ("transcription_urls".toList) with
  | some (.parr l) => l
  | _ =>
    match lookupField fields ("transcription_url".toList) with
    | some (.parr l) => l
    | _ =>
      match lookupField fields ("transcripts".toList) with
      | some (.parr l) => l
      | _ => []

def toLowerList (s : List Char) : List Char := s.map Char.toLower

/-- The filter of lines 525-534: a dict entry whose `type` is the string
`"vtt"` and whose `language` lower-cases to `"english"` or `"en"`.  A missing
`type` or `language` defaults to `""`; a non-string `type` compares unequal
to `"vtt"`; a non-string `language` on a `"vtt"` entry would raise in Python
and is not exercised by any claim, so it is treated as no match. -/
def is_english_vtt (item : PyJson) : Bool :=
  match item with
  | .pobj fs =>
    (match lookupField fs ("type".toList) with
     | some (.pstr t) => t == "vtt".toList
     | _ => false)
    &&
    (match lookupField fs ("language".toList) with
     | some (.pstr l) => toLowerList l == "english".toList || toLowerList l == "en".toList
     | _ => false)
  | _ => false

/-- The `vtt_files` list computed by lines 483-536.  The entire search is
gated on `isinstance(transcript_data, dict)`; inside that gate the code tries
a `data` list field, then a `result` list field, then the unreachable
`elif isinstance(transcript_data, list)` (kept here as `asList td`, which is
`none` because `td` is an object in this branch).  `if data_array:` requires
a non-empty list; otherwise the direct top-level fields are tried. -/
def extract_vtt_files (td : PyJson) : List PyJson :=
  match td with
  | .pobj fields =>
    let data_array : Option (List PyJson) :=
      match lookupField fields ("data".toList) with
      | some (.parr l) => some l
      | _ =>
        match lookupField fields ("result".toList) with
        | some (.parr l) => some l
        | _ => asList td
    let all_transcripts : List PyJson :=
      match data_array with
      | some (x :: xs) => (x :: xs).flatMap extract_item_transcripts
      | _ => fallback_direct fields
    all_transcripts.filter is_english_vtt
  | _ => []

/-- What `process_resource` does with a transcript payload (lines 538-552):
download each matched English VTT entry, or persist the raw JSON payload as
the fallback artifact when no entry matched. -/
inductive TranscriptAction where
  | downloadVtts : List PyJson → TranscriptAction
  | saveJsonFallback : TranscriptAction

def transcript_action (td : PyJson) : TranscriptAction :=
  match extract_vtt_files td with
  | [] => .saveJsonFallback
  | v :: vs => .downloadVtts (v :: vs)

/-! ### Media-type branching of `process_resource`
(scorm_downloader.py lines 427-582) -/

def listStartsWith : List Char → List Char → Bool
  | _, [] => true
  | [], _ :: _ => false
  | c :: cs, p :: ps => c == p && listStartsWith cs ps

/-- Python's `pat in s` substring test. -/
def containsSub (s pat : List Char) : Bool :=
  match s with
  | [] => listStartsWith [] pat
  | _ :: rest => listStartsWith s pat || containsSub rest pat

def SCORM_MIME : List Char := "application/vnd.ekstep.html-archive".toList

def MP4_MIME : List Char := "video/mp4".toList

/-- The branch `process_resource` takes for a resolved resource. -/
inductive ResourceBranch where
  | scorm : ResourceBranch
  | mp4 : ResourceBranch
  | youtube : ResourceBranch
  | skipped : ResourceBranch
deriving DecidableEq

/-- The `if mime_type == ... elif ... elif ... else` chain of
`process_resource`: the SCORM branch, then the MP4 branch, then the
hosted-video branch (mime `"x-url"` or a YouTube domain substring in the
lower-cased artifact URL), then the skip branch. -/
def classify_resource (mimeType artifactUrl : List Char) : ResourceBranch :=
  if mimeType = SCORM_MIME then .scorm
  else if mimeType = MP4_MIME then .mp4
  else if mimeType = "x-url".toList
      ∨ containsSub (toLowerList artifactUrl) ("youtube.com".toList) = true
      ∨ containsSub (toLowerList artifactUrl) ("youtu.be".toList) = true then .youtube
  else .skipped

/-! ### Summary reporting: `print_summary` (scorm_downloader.py lines 650-672) -/

/-- The error entries printed in detail: `self.stats["errors"][:10]`. -/
def summary_error_details (errors : List (List Char)) : List (List Char) :=
  errors.take 10

/-- The overflow note: `... and {len - 10} more errors` printed only when
more than 10 errors were recorded. -/
def summary_overflow_note (errors : List (List Char)) : Option Nat :=
  if 10 < errors.length then some (errors.length - 10) else none

/-! ### Pacing of the orchestrators: `process_course`
(scorm_downloader.py lines 610-616) and `process_multiple_courses`
(lines 632-646) -/

/-- An observable step of the orchestration loops: processing one child
resource, processing one course, or one pacing sleep of the given duration
in milliseconds (sleeps inside the processing calls themselves, such as
retry backoff, are behind `procResource` / `procCourse` and not traced). -/
inductive PaceEvent where
  | procResource : List Char → PaceEvent
  | procCourse : List Char → PaceEvent
  | sleepMs : Nat → PaceEvent
deriving DecidableEq

/-- The loop body of `process_course`: for each child in API order, process
it, then `time.sleep(0.5)` unconditionally — also after the last child. -/
def process_course_trace (childNodes : List (List Char)) : List PaceEvent :=
  match childNodes with
  | [] => []
  | c :: rest => PaceEvent.procResource c :: PaceEvent.sleepMs 500 :: process_course_trace rest

/-- The loop of `process_multiple_courses`: each course is processed (its
failures caught), and `time.sleep(2)` runs only when `idx < len(ids)`,
never after the last course. -/
def process_multiple_courses_trace (ids : List (List Char)) : List PaceEvent :=
  match ids with
  | [] => []
  | [c] => [PaceEvent.procCourse c]
  | c :: c2 :: rest =>
    PaceEvent.procCourse c :: PaceEvent.sleepMs 2000 ::
      process_multiple_courses_trace (c2 :: rest)

/-- Recognizer for a pacing sleep of a given duration. -/
def isSleepMs (ms : Nat) : PaceEvent → Bool
  | .sleepMs m => m == ms
  | _ => false

/-- Number of pacing sleeps of a given duration in a trace. -/
def countSleep (ms : Nat) (tr : List PaceEvent) : Nat :=
  (tr.filter (isSleepMs ms)).length

/-! ### The start endpoint: `start_download` (app.py lines 349-382) -/

/-- The response of the `/api/download` handler: an error JSON with an HTTP
status code (no worker thread is started on this path), or a success JSON
after the background worker is launched, carrying `total_courses`. -/
inductive StartResponse where
  | err : List Char → Nat → StartResponse
  | started : Nat → StartResponse
deriving DecidableEq

def isErr : StartResponse → Bool
  | .err _ _ => true
  | .started _ => false

/-- The cleaned id list `[do_id.strip() for do_id in do_ids if do_id.strip()]`. -/
def clean_do_ids (do_ids : List (List Char)) : List (List Char) :=
  (do_ids.map pyStrip).filter (fun s => !s.isEmpty)

/-- `start_download`: reject when a run is active, when the posted list is
empty, or when it is empty after stripping blanks; otherwise launch the
worker and report success. -/
def start_download (is_running : Bool) (do_ids : List (List Char)) : StartResponse :=
  if is_running then .err ("Download already in progress".toList) 400
  else if do_ids = [] then .err ("No DO IDs provided".toList) 400
  else
    let cleaned := clean_do_ids do_ids
    if cleaned = [] then .err ("No valid DO IDs provided".toList) 400
    else .started cleaned.length

/-! ## Helper lemmas -/

theorem mem_of_mem_dropWhile {p : Char → Bool} :
    ∀ {l : List Char} {c : Char}, c ∈ l.dropWhile p → c ∈ l := by
  intro l
  induction l with
  | nil => intro c h; simp at h
  | cons a as ih =>
    intro c h
    rw [List.dropWhile_cons] at h
    by_cases hp : p a = true
    · rw [if_pos hp] at h
      exact List.mem_cons_of_mem _ (ih h)
    · rw [if_neg hp] at h
      exact h

theorem head?_dropWhile_false {p : Char → Bool} :
    ∀ {l : List Char} {c : Char}, (l.dropWhile p).head? = some c → p c = false := by
  intro l
  induction l with
  | nil => intro c h; simp at h
  | cons a as ih =>
    intro c h
    rw [List.dropWhile_cons] at h
    by_cases hp : p a = true
    · rw [if_pos hp] at h
      exact ih h
    · rw [if_neg hp] at h
      have ha : a = c := by simpa using h
      subst ha
      simpa using hp

theorem dropTrailing_append (p : Char → Bool) (l : List Char) :
    dropTrailing p l ++ (l.reverse.takeWhile p).reverse = l := by
  rw [dropTrailing, ← List.reverse_append, List.takeWhile_append_dropWhile,
    List.reverse_reverse]

theorem mem_of_mem_dropTrailing {p : Char → Bool} {l : List Char} {c : Char}
    (h : c ∈ dropTrailing p l) : c ∈ l := by
  rw [dropTrailing, List.mem_reverse] at h
  have h2 := mem_of_mem_dropWhile h
  rwa [List.mem_reverse] at h2

theorem head?_dropTrailing {p : Char → Bool} {l : List Char} {c : Char}
    (h : (dropTrailing p l).head? = some c) : l.head? = some c := by
  have happ := dropTrailing_append p l
  cases hd : dropTrailing p l with
  | nil => rw [hd] at h; simp at h
  | cons x xs =>
    rw [hd] at h happ
    have hx : x = c := by simpa using h
    subst hx
    rw [← happ]
    simp

theorem mem_collapseRuns {p : Char → Bool} {r : Char} :
    ∀ {l : List Char} {c : Char}, c ∈ collapseRuns p r l →
      c = r ∨ (c ∈ l ∧ p c = false) := by
  intro l
  induction l with
  | nil => intro c h; simp [collapseRuns] at h
  | cons a as ih =>
    intro c h
    cases as with
    | nil =>
      cases hp : p a with
      | true =>
        left
        simpa [collapseRuns, hp] using h
      | false =>
        right
        have ha : c = a := by simpa [collapseRuns, hp] using h
        subst ha
        exact ⟨List.mem_cons_self _ _, hp⟩
    | cons b bs =>
      cases hp : p a with
      | true =>
        cases hpb : p b with
        | true =>
          have h' : c ∈ collapseRuns p r (b :: bs) := by
            simpa [collapseRuns, hp, hpb] using h
          rcases ih h' with h1 | ⟨h2, h3⟩
          · exact Or.inl h1
          · exact Or.inr ⟨List.mem_cons_of_mem _ h2, h3⟩
        | false =>
          have h' : c ∈ r :: collapseRuns p r (b :: bs) := by
            simpa [collapseRuns, hp, hpb] using h
          rcases List.mem_cons.mp h' with h1 | h1
          · exact Or.inl h1
          · rcases ih h1 with h2 | ⟨h3, h4⟩
            · exact Or.inl h2
            · exact Or.inr ⟨List.mem_cons_of_mem _ h3, h4⟩
      | false =>
        have h' : c ∈ a :: collapseRuns p r (b :: bs) := by
          simpa [collapseRuns, hp] using h
        rcases List.mem_cons.mp h' with h1 | h1
        · subst h1; exact Or.inr ⟨List.mem_cons_self _ _, hp⟩
        · rcases ih h1 with h2 | ⟨h3, h4⟩
          · exact Or.inl h2
          · exact Or.inr ⟨List.mem_cons_of_mem _ h3, h4⟩

theorem mem_of_matchParenGroup {s rest : List Char} {c : Char}
    (h : matchParenGroup s = some rest) (hc : c ∈ rest) : c ∈ s := by
  unfold matchParenGroup at h
  cases e1 : s.dropWhile isSpaceChar with
  | nil => rw [e1] at h; exact absurd h (by simp)
  | cons x xs =>
    rw [e1] at h
    have h' : (if x = '(' then
        match xs.dropWhile (fun c => c != ')') with
        | [] => none
        | _ :: rest2 => some (rest2.dropWhile isSpaceChar)
      else none) = some rest := h
    by_cases hx : x = '('
    · rw [if_pos hx] at h'
      cases e2 : xs.dropWhile (fun c => c != ')') with
      | nil => rw [e2] at h'; exact absurd h' (by simp)
      | cons y ys =>
        rw [e2] at h'
        have hrest : ys.dropWhile isSpaceChar = rest := by simpa using h'
        have h1 : c ∈ ys := mem_of_mem_dropWhile (hrest ▸ hc)
        have h2 : c ∈ xs := mem_of_mem_dropWhile (e2 ▸ List.mem_cons_of_mem y h1)
        exact mem_of_mem_dropWhile (e1 ▸ List.mem_cons_of_mem x h2)
    · rw [if_neg hx] at h'
      exact absurd h' (by simp)

theorem mem_removeParensAux :
    ∀ (fuel : Nat) (s : List Char) {c : Char},
      c ∈ removeParensAux fuel s → c = '_' ∨ c ∈ s := by
  intro fuel
  induction fuel with
  | zero => intro s c h; exact Or.inr h
  | succ n ih =>
    intro s c h
    cases s with
    | nil => simp [removeParensAux] at h
    | cons a as =>
      cases e : matchParenGroup (a :: as) with
      | some rest =>
        simp only [removeParensAux, e] at h
        rcases List.mem_cons.mp h with h1 | h1
        · exact Or.inl h1
        · rcases ih rest h1 with h2 | h2
          · exact Or.inl h2
          · exact Or.inr (mem_of_matchParenGroup e h2)
      | none =>
        simp only [removeParensAux, e] at h
        rcases List.mem_cons.mp h with h1 | h1
        · subst h1; exact Or.inr (List.mem_cons_self _ _)
        · rcases ih as h1 with h2 | h2
          · exact Or.inl h2
          · exact Or.inr (List.mem_cons_of_mem _ h2)

theorem invalid_false_of_mem_map {name : List Char} {c : Char}
    (h : c ∈ name.map replaceInvalid) : isInvalidChar c = false := by
  rcases List.mem_map.mp h with ⟨a, _, rfl⟩
  unfold replaceInvalid
  by_cases ha : isInvalidChar a = true
  · rw [if_pos ha]; decide
  · rw [if_neg ha]; simpa using ha

theorem safe_after_collapseWs {name : List Char} {c : Char}
    (h : c ∈ collapseRuns isSpaceChar '_' (removeParens (name.map replaceInvalid))) :
    isSafeChar c = true := by
  rcases mem_collapseRuns h with rfl | ⟨h2, h3⟩
  · decide
  · rw [removeParens] at h2
    rcases mem_removeParensAux _ _ h2 with rfl | h4
    · decide
    · have h5 := invalid_false_of_mem_map h4
      rw [isSafeChar, h5, h3]
      rfl

theorem safe_after_collapseUnderscores {name : List Char} {c : Char}
    (h : c ∈ collapseRuns (fun c => c == '_') '_'
          (collapseRuns isSpaceChar '_' (removeParens (name.map replaceInvalid)))) :
    isSafeChar c = true := by
  rcases mem_collapseRuns h with rfl | ⟨h2, _⟩
  · decide
  · exact safe_after_collapseWs h2

theorem safe_of_mem_strip {name : List Char} {c : Char}
    (h : c ∈ stripUnderscores (collapseRuns (fun c => c == '_') '_'
          (collapseRuns isSpaceChar '_' (removeParens (name.map replaceInvalid))))) :
    isSafeChar c = true := by
  rw [stripUnderscores] at h
  exact safe_after_collapseUnderscores (mem_of_mem_dropWhile (mem_of_mem_dropTrailing h))

theorem sanitize_filename_safe (name : List Char) :
    ∀ c ∈ sanitize_filename name, isSafeChar c = true := by
  intro c hc
  rw [sanitize_filename] at hc
  split at hc
  · rcases List.mem_append.mp hc with h1 | h1
    · exact safe_of_mem_strip (List.take_subset _ _ h1)
    · have : c = '.' := by simpa using h1
      subst this
      decide
  · exact safe_of_mem_strip hc

theorem sanitize_filename_head {name : List Char} {c : Char}
    (h : (sanitize_filename name).head? = some c) : c ≠ '_' := by
  rw [sanitize_filename] at h
  have hstrip :
      (stripUnderscores (collapseRuns (fun c => c == '_') '_'
        (collapseRuns isSpaceChar '_' (removeParens (name.map replaceInvalid))))).head? =
        some c → c ≠ '_' := by
    intro hh
    rw [stripUnderscores] at hh
    have := head?_dropWhile_false (head?_dropTrailing hh)
    simpa using this
  split at h
  · rename_i hlen
    cases hs : stripUnderscores (collapseRuns (fun c => c == '_') '_'
        (collapseRuns isSpaceChar '_' (removeParens (name.map replaceInvalid)))) with
    | nil => rw [hs] at hlen; simp at hlen
    | cons x xs =>
      rw [hs, List.take_succ_cons] at h
      have hx : x = c := by simpa using h
      subst hx
      exact hstrip (by rw [hs]; rfl)
  · exact hstrip h

/-! ## Claims -/

/-- Claim C1, counterexample.  The claim says that when all 3 attempts of
`download_file_with_retry` fail, the `failed_downloads` counter is
incremented exactly once in total.  With three attempts failing on a caught
network error, `download_file` itself increments the counter on every
attempt, so the loop increments it three times, not once. -/
theorem C1_retry_counterexample :
    (download_file_with_retry ("u".toList)
      [DLOutcome.netErr ("t".toList), DLOutcome.netErr ("t".toList),
       DLOutcome.netErr ("t".toList)] stats0).1 = false ∧
    (download_file_with_retry ("u".toList)
      [DLOutcome.netErr ("t".toList), DLOutcome.netErr ("t".toList),
       DLOutcome.netErr ("t".toList)] stats0).2.failed_downloads = 3 :=
  ⟨rfl, rfl⟩

/-- Claim C1, amended.  When every attempt of `download_file_with_retry`
fails, the call returns `False` and never raises (the function is total by
construction: every exception inside `download_file` is caught there), and
`failed_downloads` grows by one per attempt that fails in a counted handler
of `download_file` (network, OS or generic error) — so by 3 for three
network failures, not by exactly 1. -/
theorem C1_retry_all_fail (url : List Char) (outcomes : List DLOutcome) (st : Stats)
    (h : ∀ o ∈ outcomes, isOkOutcome o = false) :
    (download_file_with_retry url outcomes st).1 = false ∧
    (download_file_with_retry url outcomes st).2.failed_downloads =
      st.failed_downloads + (outcomes.map dlIncrements).sum := by
  induction outcomes generalizing st with
  | nil => simp [download_file_with_retry]
  | cons o rest ih =>
    have hrest : ∀ o' ∈ rest, isOkOutcome o' = false :=
      fun o' ho' => h o' (List.mem_cons_of_mem _ ho')
    cases o with
    | ok => exact absurd (h _ (List.mem_cons_self _ _)) (by simp [isOkOutcome])
    | mkdirFail m =>
      simp only [download_file_with_retry, download_file, if_neg (by simp : ¬false = true)]
      obtain ⟨h1, h2⟩ := ih st hrest
      exact ⟨h1, by simp [h2, dlIncrements]⟩
    | netErr m =>
      simp only [download_file_with_retry, download_file, if_neg (by simp : ¬false = true)]
      obtain ⟨h1, h2⟩ := ih _ hrest
      refine ⟨h1, ?_⟩
      rw [h2]
      simp [dlIncrements]
      omega
    | osErr m =>
      simp only [download_file_with_retry, download_file, if_neg (by simp : ¬false = true)]
      obtain ⟨h1, h2⟩ := ih _ hrest
      refine ⟨h1, ?_⟩
      rw [h2]
      simp [dlIncrements]
      omega
    | otherErr m =>
      simp only [download_file_with_retry, download_file, if_neg (by simp : ¬false = true)]
      obtain ⟨h1, h2⟩ := ih _ hrest
      refine ⟨h1, ?_⟩
      rw [h2]
      simp [dlIncrements]
      omega

/-- Claim C1, witness for the amended theorem at a concrete run whose three
attempts fail as mkdir failure, network error and OS error. -/
theorem C1_retry_all_fail_witness :
    (download_file_with_retry ("u".toList)
      [DLOutcome.mkdirFail ("m".toList), DLOutcome.netErr ("a".toList),
       DLOutcome.osErr ("b".toList)] stats0).1 = false ∧
    (download_file_with_retry ("u".toList)
      [DLOutcome.mkdirFail ("m".toList), DLOutcome.netErr ("a".toList),
       DLOutcome.osErr ("b".toList)] stats0).2.failed_downloads =
      stats0.failed_downloads +
        (([DLOutcome.mkdirFail ("m".toList), DLOutcome.netErr ("a".toList),
           DLOutcome.osErr ("b".toList)]).map dlIncrements).sum :=
  C1_retry_all_fail ("u".toList) _ stats0 (by decide)

/-- A caption entry of type `"vtt"` and language `"en"`. -/
def capC2 : PyJson :=
  .pobj [("type".toList, .pstr ("vtt".toList)),
         ("language".toList, .pstr ("en".toList)),
         ("url".toList, .pstr ("u".toList))]

/-- A data item exposing that caption entry under `transcription_urls`. -/
def itemC2 : PyJson := .pobj [("transcription_urls".toList, .parr [capC2])]

/-- A pipeline payload that is a top-level JSON array. -/
def tdC2 : PyJson := .parr [itemC2]

/-- Claim C2.  A pipeline-transcript payload that is a top-level JSON array
containing an English VTT caption entry is NOT treated as the data array:
the whole extraction is gated on `isinstance(transcript_data, dict)` (the
`elif isinstance(transcript_data, list)` branch sits inside that gate and is
unreachable), so the payload falls through to the raw-JSON fallback.  The
second conjunct shows the very same content is classified for VTT download
once wrapped in a `data` field, isolating the gate as the point of
divergence. -/
theorem C2_array_payload_falls_to_fallback :
    transcript_action tdC2 = TranscriptAction.saveJsonFallback ∧
    transcript_action (PyJson.pobj [("data".toList, PyJson.parr [itemC2])]) =
      TranscriptAction.downloadVtts [capC2] :=
  ⟨rfl, rfl⟩

/-- A parseable envelope whose `responseCode` is not `"OK"`. -/
def envC3 : List (List Char × PyJson) :=
  [("responseCode".toList, PyJson.pstr ("CLIENT_ERROR".toList)),
   ("params".toList, PyJson.pobj [("errmsg".toList, PyJson.pstr ("not found".toList))])]

/-- Claim C3, counterexample.  The claim says a parseable non-OK envelope
appends an error message to `stats["errors"]`.  On this envelope the call
returns `None` but the errors list is left empty: only the exception
handlers of `get_content_details` append errors, the non-OK branch only
logs. -/
theorem C3_counterexample :
    (get_content_details ("do_1".toList) (CDBehavior.okEnv envC3) stats0).1 = none ∧
    (get_content_details ("do_1".toList) (CDBehavior.okEnv envC3) stats0).2.errors = [] :=
  ⟨rfl, rfl⟩

/-- Claim C3, amended.  On a parseable envelope with a non-OK status,
`get_content_details` logs the failure and returns `None` — aborting that
identifier's subtree while the batch continues — but records nothing in
`RunStatistics.errors`: the statistics are returned unchanged. -/
theorem C3_nonok_no_error_recorded (do_id : List Char)
    (fields : List (List Char × PyJson)) (st : Stats)
    (h : isOkResponse fields = false) :
    get_content_details do_id (CDBehavior.okEnv fields) st = (none, st) := by
  simp [get_content_details, h]

/-- Claim C3, witness for the amended theorem at the concrete envelope. -/
theorem C3_nonok_witness :
    get_content_details ("do_1".toList) (CDBehavior.okEnv envC3) stats0 = (none, stats0) :=
  C3_nonok_no_error_recorded ("do_1".toList) envC3 stats0 (by decide)

/-- Claim C4, counterexample.  The claim says every successful path of
`download_file` flushes and fsyncs before declaring success, including the
path for a missing or zero `content-length`.  On that path (`total_size` 0)
the body is written in one call and the file merely closed: neither `flush`
nor `fsync` appears in the operation sequence. -/
theorem C4_counterexample :
    FileOp.fsync ∉ download_file_ops 0 [100] ∧
    FileOp.flush ∉ download_file_ops 0 [100] := by
  decide

/-- Claim C4, amended.  On the streamed path (`total_size` nonzero) the
written chunks are followed by `flush` then `os.fsync` before the close and
the success return; on the zero/missing `content-length` path no explicit
fsync is performed before success. -/
theorem C4_fsync_only_when_streamed (total_size : Nat) (chunks : List Nat) :
    (total_size ≠ 0 →
      ∃ pre, download_file_ops total_size chunks =
        pre ++ [FileOp.flush, FileOp.fsync, FileOp.close]) ∧
    (total_size = 0 → FileOp.fsync ∉ download_file_ops total_size chunks) := by
  constructor
  · intro h
    refine ⟨(chunks.filter (fun c => c != 0)).map FileOp.write, ?_⟩
    simp [download_file_ops, h]
  · intro h
    subst h
    simp [download_file_ops]

/-- Claim C4, witness for the amended theorem on both branches. -/
theorem C4_fsync_witness :
    (∃ pre, download_file_ops 8292 [8192, 100] =
      pre ++ [FileOp.flush, FileOp.fsync, FileOp.close]) ∧
    FileOp.fsync ∉ download_file_ops 0 [42] :=
  ⟨(C4_fsync_only_when_streamed 8292 [8192, 100]).1 (by decide),
   (C4_fsync_only_when_streamed 0 [42]).2 rfl⟩

/-- Claim C5, counterexample.  The claim says the sanitized name as used at
the call sites (`sanitize_filename(name)[:25]`, `[:20]`) has no trailing
underscore.  For this 26-character name the sanitizer's own strip leaves an
interior underscore at position 24, and the call-site slice `[:25]` cuts
right after it, so the name used ends in an underscore. -/
theorem C5_counterexample :
    ((sanitize_filename ("aaaaaaaaaaaaaaaaaaaaaaaa_b".toList)).take 25).getLast? =
      some '_' := by
  decide

/-- Claim C5, amended.  For every name and both call-site limits N (20 for
course folders, 25 for resource folders/files), the sliced sanitizer output
contains only filesystem-safe characters (none of the nine invalid
characters and no whitespace), has no LEADING underscore, and has length at
most N; a trailing underscore, however, can be re-exposed by the slice. -/
theorem C5_sanitize_sites (name : List Char) (N : Nat) (hN : N = 20 ∨ N = 25) :
    (∀ c ∈ (sanitize_filename name).take N, isSafeChar c = true) ∧
    (∀ c, ((sanitize_filename name).take N).head? = some c → c ≠ '_') ∧
    ((sanitize_filename name).take N).length ≤ N := by
  refine ⟨?_, ?_, ?_⟩
  · intro c hc
    exact sanitize_filename_safe name c (List.take_subset _ _ hc)
  · intro c hc
    obtain ⟨m, rfl⟩ : ∃ m, N = m + 1 :=
      ⟨N - 1, by rcases hN with rfl | rfl <;> rfl⟩
    cases hs : sanitize_filename name with
    | nil => rw [hs] at hc; simp at hc
    | cons x xs =>
      rw [hs, List.take_succ_cons] at hc
      have hx : x = c := by simpa using hc
      subst hx
      exact sanitize_filename_head (by rw [hs]; rfl)
  · exact List.length_take_le _ _

/-- Claim C5, witness for the amended theorem at the resource-site limit 25
on the spec's own example name. -/
theorem C5_sanitize_sites_witness :
    (∀ c ∈ (sanitize_filename ("Intro (APAR) Training".toList)).take 25,
      isSafeChar c = true) ∧
    (∀ c, ((sanitize_filename ("Intro (APAR) Training".toList)).take 25).head? =
      some c → c ≠ '_') ∧
    ((sanitize_filename ("Intro (APAR) Training".toList)).take 25).length ≤ 25 :=
  C5_sanitize_sites ("Intro (APAR) Training".toList) 25 (Or.inr rfl)

/-- Eleven distinct error strings, one more than the summary detail limit. -/
def errsC6 : List (List Char) :=
  ["e01", "e02", "e03", "e04", "e05", "e06", "e07", "e08", "e09", "e10",
   "e11"].map String.toList

/-- Claim C6, counterexample.  The claim says the summary surfaces the most
recent 10 errors.  With 11 recorded errors the code prints
`stats["errors"][:10]` — the oldest 10 — which differs from the most recent
10 (the last 10). -/
theorem C6_counterexample :
    summary_error_details errsC6 ≠ errsC6.drop (errsC6.length - 10) := by
  decide

/-- Claim C6, amended.  The summary surfaces the FIRST 10 recorded errors in
detail (a length-10 prefix of the list) together with a count of the excess
when more than 10 exist; with 10 or fewer it surfaces all of them and emits
no overflow note. -/
theorem C6_first_ten_surfaced (errors : List (List Char)) :
    (errors.length ≤ 10 →
      summary_error_details errors = errors ∧ summary_overflow_note errors = none) ∧
    (10 < errors.length →
      (summary_error_details errors).length = 10 ∧
      (∃ rest, summary_error_details errors ++ rest = errors) ∧
      summary_overflow_note errors = some (errors.length - 10)) := by
  constructor
  · intro h
    refine ⟨List.take_of_length_le h, ?_⟩
    simp [summary_overflow_note, Nat.not_lt.mpr h]
  · intro h
    refine ⟨?_, ⟨errors.drop 10, List.take_append_drop 10 errors⟩, ?_⟩
    · rw [summary_error_details, List.length_take]
      omega
    · simp [summary_overflow_note, h]

/-- Claim C6, witness for the amended theorem at the 11-error list. -/
theorem C6_first_ten_witness :
    (summary_error_details errsC6).length = 10 ∧
    (∃ rest, summary_error_details errsC6 ++ rest = errsC6) ∧
    summary_overflow_note errsC6 = some (errsC6.length - 10) :=
  (C6_first_ten_surfaced errsC6).2 (by decide)

/-- Claim C7.  `process_course` performs exactly one 0.5-second pacing sleep
per child, placed immediately after each child including the last (the trace
is exactly the interleaving of child steps with 500 ms sleeps), and
`process_multiple_courses` performs exactly `n - 1` two-second pacing
sleeps, one between consecutive courses and none after the last (the trace
is the course steps interspersed with 2000 ms sleeps). -/
theorem C7_pacing_sleeps (children ids : List (List Char)) :
    process_course_trace children =
      children.flatMap (fun c => [PaceEvent.procResource c, PaceEvent.sleepMs 500]) ∧
    countSleep 500 (process_course_trace children) = children.length ∧
    process_multiple_courses_trace ids =
      List.intersperse (PaceEvent.sleepMs 2000) (ids.map PaceEvent.procCourse) ∧
    countSleep 2000 (process_multiple_courses_trace ids) = ids.length - 1 := by
  refine ⟨?_, ?_, ?_, ?_⟩
  · induction children with
    | nil => rfl
    | cons c rest ih => simp [process_course_trace, ih]
  · induction children with
    | nil => rfl
    | cons c rest ih =>
      simp only [process_course_trace, countSleep, List.filter_cons] at ih ⊢
      simp [isSleepMs] at ih ⊢
      omega
  · induction ids with
    | nil => rfl
    | cons a rest ih =>
      cases rest with
      | nil => rfl
      | cons b bs =>
        simp only [process_multiple_courses_trace] at ih ⊢
        rw [ih]
        simp [List.intersperse]
  · induction ids with
    | nil => rfl
    | cons a rest ih =>
      cases rest with
      | nil => rfl
      | cons b bs =>
        simp only [process_multiple_courses_trace, countSleep, List.filter_cons] at ih ⊢
        simp [isSleepMs] at ih ⊢
        omega

/-- Claim C8.  `start_download` answers with an error — and on that path no
worker thread is launched, the error return happens before the thread is
created — exactly when a run is already active or the posted id list is
empty after stripping blank entries; otherwise it starts the run and
reports the number of cleaned ids. -/
theorem C8_start_preconditions (is_running : Bool) (do_ids : List (List Char)) :
    (isErr (start_download is_running do_ids) = true ↔
      (is_running = true ∨ clean_do_ids do_ids = [])) ∧
    (isErr (start_download is_running do_ids) = false →
      start_download is_running do_ids = .started (clean_do_ids do_ids).length) := by
  cases is_running with
  | true => simp [start_download, isErr]
  | false =>
    by_cases hnil : do_ids = []
    · subst hnil
      simp [start_download, isErr, clean_do_ids]
    · by_cases hcl : clean_do_ids do_ids = []
      · simp [start_download, hnil, hcl, isErr]
      · simp [start_download, hnil, hcl, isErr]

/-- Claim C8, witness: a single id with surrounding blanks passes the
precondition and starts a run of one course. -/
theorem C8_start_witness :
    start_download false [" do_1 ".toList] =
      StartResponse.started (clean_do_ids [" do_1 ".toList]).length :=
  (C8_start_preconditions false [" do_1 ".toList]).2 (by decide)

/-- Claim C9.  The mime branches of `process_resource` take precedence over
the artifact-URL inspection: a resource whose mime type is the SCORM archive
type or `video/mp4` takes that branch for every artifact URL, YouTube-
containing ones included, and the hosted-video branch is reachable only for
mime types that are neither of those two. -/
theorem C9_mime_precedence :
    (∀ url : List Char, classify_resource SCORM_MIME url = ResourceBranch.scorm) ∧
    (∀ url : List Char, classify_resource MP4_MIME url = ResourceBranch.mp4) ∧
    (∀ mime url : List Char, classify_resource mime url = ResourceBranch.youtube →
      mime ≠ SCORM_MIME ∧ mime ≠ MP4_MIME) := by
  refine ⟨fun url => ?_, fun url => ?_, fun mime url h => ?_⟩
  · rw [classify_resource, if_pos rfl]
  · rw [classify_resource, if_neg (by decide), if_pos rfl]
  · constructor
    · intro hm
      subst hm
      rw [classify_resource, if_pos rfl] at h
      exact absurd h (by decide)
    · intro hm
      subst hm
      rw [classify_resource, if_neg (by decide), if_pos rfl] at h
      exact absurd h (by decide)

/-- Claim C9, witness: the `x-url` mime reaches the hosted-video branch and
is distinct from both prioritized mime types. -/
theorem C9_mime_precedence_witness :
    "x-url".toList ≠ SCORM_MIME ∧ "x-url".toList ≠ MP4_MIME :=
  C9_mime_precedence.2.2 ("x-url".toList) [] (by decide)

/-- Claim C10.  In `fetch_transcript`, request exceptions retry, but an
exception of any other kind on any reachable attempt (after any run of
request-exception attempts) immediately increments `transcript_errors` once,
appends the single generic error message, and returns `None` after exactly
`pre.length + 1` attempts — the remaining attempts are never performed. -/
theorem C10_nonrequest_immediate_abort (rid : List Char) (pre rest : List TFOutcome)
    (m : List Char) (st : Stats) (h : ∀ o ∈ pre, isReqErr o = true) :
    fetch_transcript rid (pre ++ TFOutcome.otherErr m :: rest) st =
      (none,
       { st with
           transcript_errors := st.transcript_errors + 1
           errors := st.errors ++
             ["Transcript error for ".toList ++ rid ++ ": ".toList ++ m] },
       pre.length + 1) := by
  induction pre generalizing st with
  | nil => simp [fetch_transcript]
  | cons o pre' ih =>
    have ho := h o (List.mem_cons_self _ _)
    have hpre' : ∀ o' ∈ pre', isReqErr o' = true :=
      fun o' ho' => h o' (List.mem_cons_of_mem _ ho')
    cases o with
    | ok d => simp [isReqErr] at ho
    | otherErr m' => simp [isReqErr] at ho
    | reqErr m' =>
      cases hp : pre' ++ TFOutcome.otherErr m :: rest with
      | nil => exact absurd hp (by cases pre' <;> simp)
      | cons q qs =>
        have hstep : fetch_transcript rid
            ((TFOutcome.reqErr m' :: pre') ++ TFOutcome.otherErr m :: rest) st =
            ((fetch_transcript rid (q :: qs) st).1,
             (fetch_transcript rid (q :: qs) st).2.1,
             (fetch_transcript rid (q :: qs) st).2.2 + 1) := by
          rw [List.cons_append, hp]
          rfl
        rw [hstep, ← hp, ih st hpre']
        simp

/-- Claim C10, witness: one request-exception attempt, then a non-request
exception (for example a JSON decode failure) aborts at attempt 2 with one
counted transcript error, skipping the third attempt. -/
theorem C10_nonrequest_witness :
    fetch_transcript ("do_9".toList)
      ([TFOutcome.reqErr ("t1".toList)] ++
        TFOutcome.otherErr ("bad json".toList) :: [TFOutcome.ok PyJson.null]) stats0 =
      (none,
       { stats0 with
           transcript_errors := stats0.transcript_errors + 1
           errors := stats0.errors ++
             ["Transcript error for ".toList ++ "do_9".toList ++ ": ".toList ++
               "bad json".toList] },
       [TFOutcome.reqErr ("t1".toList)].length + 1) :=
  C10_nonrequest_immediate_abort ("do_9".toList) [TFOutcome.reqErr ("t1".toList)]
    [TFOutcome.ok PyJson.null] ("bad json".toList) stats0 (by decide)

end Scorm

